import Mathlib

/-!
Shallow embedding of the ingestion-and-tagging core of the
`adivo-monitoring` repository, together with proofs of the specification
claims about it.

The embedded code lives in `src/ingest/pubmed_ingest.py`,
`src/ingest/clinicaltrials_ingest.py` and `src/database/init_db.py`.
Pure helpers become Lean functions; the SQLite tables touched by the
upsert and tagging code become explicit list-valued state; code that can
raise a Python exception is embedded in `Except String`.

Python-specific behaviour that the code relies on is modelled explicitly:
string truthiness (`""` and `None` are falsy), `str.strip`, `str.lower`,
`str.isdigit` versus `int()` (these disagree on superscript digits),
`str.split`, substring containment (`in`), `datetime.strptime` for the
three fixed formats the code uses, and `date.toordinal`.
-/

namespace Adivo

/-! ### Python string primitives -/

/-- Python whitespace characters stripped by `str.strip()` (ASCII subset;
the inputs the code strips are ASCII date strings and sponsor names). -/
def pyIsSpace (c : Char) : Bool :=
  c = ' ' || c = '\t' || c = '\n' || c = '\r' || c = '\x0b' || c = '\x0c'

/-- Python `str.strip()`: drop leading and trailing whitespace. -/
def pyStrip (s : String) : String :=
  ⟨(s.data.dropWhile pyIsSpace).reverse.dropWhile pyIsSpace |>.reverse⟩

/-- Python `str.lower()` (ASCII letters; the aliases and affiliations the
claims evaluate are ASCII). -/
def pyLower (s : String) : String :=
  ⟨s.data.map Char.toLower⟩

/-- Python `c.isdigit()` for one character: true for characters with
Unicode property `Numeric_Type=Decimal` or `Numeric_Type=Digit`.  We cover
the ASCII decimal digits and the Latin-1 superscript digits `¹ ² ³`
(which are `Digit` but *not* `Decimal`, so `int()` rejects them). -/
def pyCharIsDigit (c : Char) : Bool :=
  c.isDigit || c = '¹' || c = '²' || c = '³'

/-- Python `s.isdigit()`: nonempty and every character a digit. -/
def pyStrIsDigit (s : String) : Bool :=
  !s.data.isEmpty && s.data.all pyCharIsDigit

/-- Python `int(s)` on a string that contains no sign and no whitespace:
succeeds exactly when every character is a *decimal* digit, and raises
`ValueError` otherwise (in particular on superscript digits, which
`str.isdigit` nevertheless accepts). -/
def pyIntOfStr (s : String) : Except String Nat :=
  if !s.data.isEmpty && s.data.all Char.isDigit then
    .ok (s.data.foldl (fun n c => n * 10 + (c.toNat - 48)) 0)
  else
    .error ("ValueError: invalid literal for int() with base 10: " ++ s)

/-- Python `a or b` on two optional strings: `a` unless it is `None` or
empty (falsy), else `b`. -/
def pyOrOptStr (a b : Option String) : Option String :=
  match a with
  | some s => if s = "" then b else some s
  | none => b

/-- Python `s.split(sep)` for a one-character separator: never returns an
empty list, keeps empty fields (`"a--b" ↦ ["a", "", "b"]`). -/
def splitOnChar (sep : Char) : List Char → List (List Char)
  | [] => [[]]
  | c :: rest =>
      let r := splitOnChar sep rest
      if c = sep then [] :: r
      else
        match r with
        | [] => [[c]]
        | h :: t => (c :: h) :: t

/-- Substring containment on character lists: `needle` occurs contiguously
inside `hay`.  Models Python's `needle in hay` for strings. -/
def containsAux (needle : List Char) : List Char → Bool
  | [] => needle.isEmpty
  | c :: rest => needle.isPrefixOf (c :: rest) || containsAux needle rest

/-- Python `needle in hay` for strings. -/
def pyInStr (needle hay : String) : Bool :=
  containsAux needle.data hay.data

/-! ### Proleptic Gregorian calendar (CPython `date.toordinal`) -/

/-- Gregorian leap year. -/
def isLeap (y : Nat) : Bool :=
  (y % 4 = 0 && y % 100 ≠ 0) || y % 400 = 0

/-- Month lengths of year `y`, January first. -/
def monthLengths (y : Nat) : List Nat :=
  [31, if isLeap y then 29 else 28, 31, 30, 31, 30, 31, 31, 30, 31, 30, 31]

/-- Days in the years strictly before year `y` (proleptic Gregorian). -/
def daysBeforeYear (y : Nat) : Nat :=
  (y - 1) * 365 + (y - 1) / 4 - (y - 1) / 100 + (y - 1) / 400

/-- Days in the months of year `y` strictly before month `m` (1-based). -/
def daysBeforeMonth (y m : Nat) : Nat :=
  ((monthLengths y).take (m - 1)).sum

/-- `datetime.date(y, m, d).toordinal()`: day count with 0001-01-01 ↦ 1. -/
def dateOrdinal (y m d : Nat) : Int :=
  ((daysBeforeYear y + daysBeforeMonth y m + d : Nat) : Int)

/-- `datetime.date` constructor validity: year 1–9999, month 1–12, day
within the month.  Constructing an invalid date raises `ValueError`. -/
def dateValid (y m d : Nat) : Bool :=
  1 ≤ y && y ≤ 9999 && 1 ≤ m && m ≤ 12 && 1 ≤ d &&
    d ≤ (monthLengths y).getD (m - 1) 0

/-- Walk the month lengths to convert a 0-based day-of-year into a
(month, day) pair, both 1-based. -/
def findMonth : List Nat → Nat → Nat → Nat × Nat
  | [], doy, m => (m, doy + 1)
  | len :: rest, doy, m =>
      if doy < len then (m, doy + 1) else findMonth rest (doy - len) (m + 1)

/-- Inverse of `dateOrdinal` on valid ordinals (`date.fromordinal`):
year, month, day of day number `n ≥ 1`. -/
def ordToYMD (n : Nat) : Nat × Nat × Nat :=
  let n0 := n - 1
  let q400 := n0 / 146097
  let r400 := n0 % 146097
  let q100 := min (r400 / 36524) 3
  let r100 := r400 - q100 * 36524
  let q4 := r100 / 1461
  let r4 := r100 % 1461
  let q1 := min (r4 / 365) 3
  let doy := r4 - q1 * 365
  let y := 400 * q400 + 100 * q100 + 4 * q4 + q1 + 1
  let (m, d) := findMonth (monthLengths y) doy 1
  (y, m, d)

/-- Zero-pad a numeral to width 2 (`strftime` `%m`/`%d`). -/
def pad2 (n : Nat) : String :=
  if n < 10 then "0" ++ toString n else toString n

/-- Zero-pad a numeral to width 4 (`strftime` `%Y`). -/
def pad4 (n : Nat) : String :=
  if n < 10 then "000" ++ toString n
  else if n < 100 then "00" ++ toString n
  else if n < 1000 then "0" ++ toString n
  else toString n

/-- `date.strftime("%Y/%m/%d")` of the date with ordinal `n`. -/
def fmtSlashOrd (n : Nat) : String :=
  let (y, m, d) := ordToYMD n
  pad4 y ++ "/" ++ pad2 m ++ "/" ++ pad2 d

/-! ### `datetime.strptime` for the formats the code uses

CPython's `_strptime` compiles `%Y` to exactly four digits, `%m` to
`1[0-2]|0[1-9]|[1-9]` and `%d` to `3[01]|[12]\d|0[1-9]|[1-9]`, requires the
whole input to be consumed, and finally constructs a `date`, which raises
`ValueError` on an out-of-range day (e.g. February 30) or on year 0.  For
these fixed formats ordered-choice matching coincides with regex
backtracking.  Digits are modelled as ASCII digits (the formats the API
emits). -/

/-- Match `%Y`: exactly four digits. -/
def matchY : List Char → Option (Nat × List Char)
  | a :: b :: c :: d :: rest =>
      if a.isDigit && b.isDigit && c.isDigit && d.isDigit then
        some ((a.toNat - 48) * 1000 + (b.toNat - 48) * 100 +
              (c.toNat - 48) * 10 + (d.toNat - 48), rest)
      else none
  | _ => none

/-- Match `%m`: `1[0-2] | 0[1-9] | [1-9]`, ordered choice. -/
def matchM : List Char → Option (Nat × List Char)
  | a :: b :: rest =>
      if a = '1' && ('0' ≤ b && b ≤ '2') then some (10 + (b.toNat - 48), rest)
      else if a = '0' && ('1' ≤ b && b ≤ '9') then some (b.toNat - 48, rest)
      else if '1' ≤ a && a ≤ '9' then some (a.toNat - 48, b :: rest)
      else none
  | [a] => if '1' ≤ a && a ≤ '9' then some (a.toNat - 48, []) else none
  | [] => none

/-- Match `%d`: `3[01] | [12]\d | 0[1-9] | [1-9]`, ordered choice. -/
def matchD : List Char → Option (Nat × List Char)
  | a :: b :: rest =>
      if a = '3' && (b = '0' || b = '1') then some (30 + (b.toNat - 48), rest)
      else if (a = '1' || a = '2') && b.isDigit then
        some ((a.toNat - 48) * 10 + (b.toNat - 48), rest)
      else if a = '0' && ('1' ≤ b && b ≤ '9') then some (b.toNat - 48, rest)
      else if '1' ≤ a && a ≤ '9' then some (a.toNat - 48, b :: rest)
      else none
  | [a] => if '1' ≤ a && a ≤ '9' then some (a.toNat - 48, []) else none
  | [] => none

/-- Match a literal separator character. -/
def matchLit (c : Char) : List Char → Option (List Char)
  | x :: rest => if x = c then some rest else none
  | [] => none

/-- `datetime.strptime(s, "%Y<sep>%m<sep>%d").date().toordinal()` as an
`Option`: `none` when the match or the date construction fails. -/
def strptimeYMD (sep : Char) (s : String) : Option Int := do
  let (y, r1) ← matchY s.data
  let r2 ← matchLit sep r1
  let (m, r3) ← matchM r2
  let r4 ← matchLit sep r3
  let (d, r5) ← matchD r4
  if r5.isEmpty && dateValid y m d then some (dateOrdinal y m d) else none

/-- `datetime.strptime(s, "%Y-%m").date().toordinal()` (day defaults to 1). -/
def strptimeYM (s : String) : Option Int := do
  let (y, r1) ← matchY s.data
  let r2 ← matchLit '-' r1
  let (m, r3) ← matchM r2
  if r3.isEmpty && dateValid y m 1 then some (dateOrdinal y m 1) else none

/-- `datetime.strptime(s, "%Y").date().toordinal()` (Jan 1 of the year). -/
def strptimeY (s : String) : Option Int := do
  let (y, r1) ← matchY s.data
  if r1.isEmpty && dateValid y 1 1 then some (dateOrdinal y 1 1) else none

/-! ### ClinicalTrials.gov date parsing
(`_parse_ct_date_to_ordinal`, `src/ingest/clinicaltrials_ingest.py` 64–78) -/

/-- `_parse_ct_date_to_ordinal(date_str)`: try `%Y-%m-%d`, `%Y-%m`, `%Y` in
order, returning the first successful parse's ordinal; `None` if the input
is falsy or no format matches.  Every `strptime` failure is caught, so the
function is total. -/
def parse_ct_date_to_ordinal (date_str : Option String) : Option Int :=
  match date_str with
  | none => none
  | some s =>
      if s = "" then none
      else
        match strptimeYMD '-' s with
        | some v => some v
        | none =>
            match strptimeYM s with
            | some v => some v
            | none => strptimeY s

/-- `datetime.strptime(s, "%Y/%m/%d").date().toordinal()` as used by
`one_off_search_with_competitors` (`pubmed_ingest.py` 434–435). -/
def parseSlashDate (s : String) : Option Int :=
  strptimeYMD '/' s

/-! ### PubMed date parsing
(`_parse_date_to_ordinal`, `src/ingest/pubmed_ingest.py` 117–130) -/

/-- `datetime(year, month, day).date().toordinal()` wrapped in the
function's `try`/`except (ValueError, TypeError)`. -/
def tryDateOrdinal (y m d : Nat) : Option Int :=
  if dateValid y m d then some (dateOrdinal y m d) else none

/-- `_parse_date_to_ordinal(s)`: split on `"-"`, guard each component with
`str.isdigit`, convert with `int()`, build the date inside `try`.  The
`int()` calls sit *outside* the `try` block, so an input whose first
component passes `isdigit` but is rejected by `int()` (a superscript
digit) raises `ValueError`; the embedding returns `.error` there. -/
def parse_date_to_ordinal (s : Option String) : Except String (Option Int) :=
  match s with
  | none => .ok none
  | some str =>
      if str = "" || pyStrip str = "" then .ok none
      else
        let parts := splitOnChar '-' (pyStrip str).data
        match parts with
        | [] => .ok none
        | p0 :: restParts =>
            if pyStrIsDigit ⟨p0⟩ then do
              let year ← pyIntOfStr ⟨p0⟩
              let month ←
                match restParts with
                | p1 :: _ =>
                    if pyStrIsDigit ⟨p1⟩ then pyIntOfStr ⟨p1⟩ else .ok 1
                | [] => .ok 1
              let day ←
                match restParts with
                | _ :: p2 :: _ =>
                    if pyStrIsDigit ⟨p2⟩ then pyIntOfStr ⟨p2⟩ else .ok 1
                | _ => .ok 1
              .ok (tryDateOrdinal year month day)
            else .ok none

/-! ### Canonical records (`PubMedRecord`, `CTRecord`) -/

/-- `PubMedRecord` dataclass (`pubmed_ingest.py` 23–32). -/
structure PubMedRecord where
  pmid : String
  title : String
  abstract : String
  pub_date : Option String
  epub_date : Option String
  publication_types : List String
  affiliations : List String
  url : String
deriving DecidableEq, Repr

/-- `CTRecord` dataclass (`clinicaltrials_ingest.py` 33–46). -/
structure CTRecord where
  nct_id : String
  title : String
  abstract : String
  url : String
  start_date : Option String
  completion_date : Option String
  first_posted : Option String
  last_updated : Option String
  phases : List String
  conditions : List String
  lead_sponsor_name : String
  collaborator_names : List String
deriving DecidableEq, Repr

/-! ### Effective first-publication dates -/

/-- `first_pub = rec.epub_date or rec.pub_date` (`pubmed_ingest.py` 377,
455): Python `or`, so an empty epub string would also fall through (the
parser never produces one). -/
def firstPubDate (rec : PubMedRecord) : Option String :=
  pyOrOptStr rec.epub_date rec.pub_date

/-- `key_date = r.first_posted or r.start_date`
(`clinicaltrials_ingest.py` 171, 191). -/
def ctKeyDate (r : CTRecord) : Option String :=
  pyOrOptStr r.first_posted r.start_date

/-! ### Post-fetch window filters -/

/-- The `in_window` loop of `ingest_profile` (`pubmed_ingest.py` 375–383):
keep a record when its effective first-publication date is unparseable or
falls inside `[startOrd, endOrd]`.  A `ValueError` escaping
`_parse_date_to_ordinal` aborts the run, hence the `Except`. -/
def profileWindowFilter (startOrd endOrd : Int) :
    List PubMedRecord → Except String (List PubMedRecord)
  | [] => .ok []
  | rec :: rest => do
      let ordVal ← parse_date_to_ordinal (firstPubDate rec)
      let tail ← profileWindowFilter startOrd endOrd rest
      match ordVal with
      | none => .ok (rec :: tail)
      | some v =>
          if startOrd ≤ v ∧ v ≤ endOrd then .ok (rec :: tail) else .ok tail

/-- The `in_window` loop of `one_off_search_with_competitors`
(`pubmed_ingest.py` 453–458): `if ord_val is None or (start_ord <= ord_val
<= end_ord)`. -/
def oneOffWindowFilter (startOrd endOrd : Int) :
    List PubMedRecord → Except String (List PubMedRecord)
  | [] => .ok []
  | rec :: rest => do
      let ordVal ← parse_date_to_ordinal (firstPubDate rec)
      let tail ← oneOffWindowFilter startOrd endOrd rest
      match ordVal with
      | none => .ok (rec :: tail)
      | some v =>
          if startOrd ≤ v ∧ v ≤ endOrd then .ok (rec :: tail) else .ok tail

/-- The ClinicalTrials.gov window filter loop (`clinicaltrials_ingest.py`
169–176 and 189–195): keep a record with an unparseable comparison date,
else keep exactly when the ordinal lies in `[startOrd, endOrd]`. -/
def ctWindowFilter (startOrd endOrd : Int) : List CTRecord → List CTRecord
  | [] => []
  | r :: rest =>
      match parse_ct_date_to_ordinal (ctKeyDate r) with
      | none => r :: ctWindowFilter startOrd endOrd rest
      | some v =>
          if startOrd ≤ v ∧ v ≤ endOrd then r :: ctWindowFilter startOrd endOrd rest
          else ctWindowFilter startOrd endOrd rest

/-! ### `esearch` date-window resolution (`pubmed_ingest.py` 133–168) -/

/-- The `mindate`/`maxdate` pair `esearch` actually sends: if either is
`None`, *both* are replaced by the 30-day window ending today
(`today - timedelta(days=30)` formatted `%Y/%m/%d`); only when both are
supplied are they forwarded unchanged.  `todayOrd` is today's
`date.toordinal()`. -/
def esearchWindow (todayOrd : Nat) (mindate maxdate : Option String) :
    String × String :=
  match mindate, maxdate with
  | some mn, some mx => (mn, mx)
  | _, _ => (fmtSlashOrd (todayOrd - 30), fmtSlashOrd todayOrd)

/-! ### `search_studies` pagination (`clinicaltrials_ingest.py` 129–197)

The network boundary is modelled by its data: the API's pages, each study
given by its `_parse_study` result (`some rec`, or `none` when the study
lacks an `nctId` and is skipped).  Exhausting the page list models the
missing `nextPageToken`. -/

/-- `if max_studies and len(records) >= max_studies` — Python truthiness:
`None` and `0` disable the cap; the comparison is on `int`s. -/
def capReached (maxStudies : Option Int) (n : Nat) : Bool :=
  match maxStudies with
  | none => false
  | some m => m ≠ 0 && (n : Int) ≥ m

/-- The date filter applied on both exit paths (`clinicaltrials_ingest.py`
165–176 and 185–195): only runs when both `start_date` and `end_date` are
truthy and both parse to ordinals; otherwise the records pass through. -/
def applyCtWindowOpt (startDate endDate : Option String)
    (records : List CTRecord) : List CTRecord :=
  match startDate, endDate with
  | some sd, some ed =>
      if sd ≠ "" ∧ ed ≠ "" then
        match parse_ct_date_to_ordinal (some sd),
              parse_ct_date_to_ordinal (some ed) with
        | some so, some eo => ctWindowFilter so eo records
        | _, _ => records
      else records
  | _, _ => records

/-- Inner `for study in data.get("studies")` loop: append each parsed
study, then check the cap after *every* study (parsed or not).
`.inr acc` signals the early `return` with candidate list `acc`;
`.inl acc` means the page was consumed. -/
def ctPageLoop (maxStudies : Option Int) :
    List (Option CTRecord) → List CTRecord →
    List CTRecord ⊕ List CTRecord
  | [], acc => .inl acc
  | study :: rest, acc =>
      let acc' := match study with
        | some rec => acc ++ [rec]
        | none => acc
      if capReached maxStudies acc'.length then .inr acc'
      else ctPageLoop maxStudies rest acc'

/-- The raw candidate list `records` accumulated by `search_studies`
before any window filtering (what the cap bounds). -/
def ctCandidatesGo (maxStudies : Option Int) :
    List (List (Option CTRecord)) → List CTRecord → List CTRecord
  | [], acc => acc
  | page :: pages, acc =>
      match ctPageLoop maxStudies page acc with
      | .inr early => early
      | .inl acc' => ctCandidatesGo maxStudies pages acc'

/-- `search_studies` proper: on the early exit (`.inr`) the window filter
is applied before returning (lines 163–177); when the token is exhausted
the same filter runs on the accumulated records (lines 184–197). -/
def search_studies_go (maxStudies : Option Int)
    (startDate endDate : Option String) :
    List (List (Option CTRecord)) → List CTRecord → List CTRecord
  | [], acc => applyCtWindowOpt startDate endDate acc
  | page :: pages, acc =>
      match ctPageLoop maxStudies page acc with
      | .inr early => applyCtWindowOpt startDate endDate early
      | .inl acc' => search_studies_go maxStudies startDate endDate pages acc'

/-- `search_studies` with `records = []` initially. -/
def search_studies (maxStudies : Option Int)
    (startDate endDate : Option String)
    (pages : List (List (Option CTRecord))) : List CTRecord :=
  search_studies_go maxStudies startDate endDate pages []

/-- Raw candidates of a `search_studies` call. -/
def ctCandidates (maxStudies : Option Int)
    (pages : List (List (Option CTRecord))) : List CTRecord :=
  ctCandidatesGo maxStudies pages []

/-! ### Snapshot store state

`schema.sql` is not under `src/`; the `documents` primary key `doc_id` and
the `competitor_mentions` uniqueness over `(doc_id, competitor_id,
match_text)` are modelled from spec §3/§6 (`INSERT OR REPLACE` /
`INSERT OR IGNORE` act on those keys). -/

/-- One row of the `documents` table (spec §6 column list; columns a
statement does not set are NULL). -/
structure DocRow where
  doc_id : String
  source : String
  snapshot_id : String
  title : String
  abstract : Option String
  url : String
  published_date : Option String
  epub_date : Option String
  entry_date : String
  last_updated : Option String
  publication_type : Option String
  raw_json_path : String
deriving DecidableEq, Repr

/-- The mutable store the upsert and tagger touch: `documents`,
`affiliations` (doc_id, affiliation_text) and `competitor_mentions`. -/
structure Mention where
  doc_id : String
  competitor_id : Int
  match_text : String
  mention_type : String
deriving DecidableEq, Repr

structure DB where
  documents : List DocRow
  affiliations : List (String × String)
  mentions : List Mention
deriving Repr

/-- `INSERT OR REPLACE INTO documents`: under the `doc_id` primary key the
conflicting row is deleted and the new row inserted. -/
def insertOrReplaceDoc (row : DocRow) (docs : List DocRow) : List DocRow :=
  docs.filter (fun d => d.doc_id ≠ row.doc_id) ++ [row]

/-- The `documents` row written for one PubMed record
(`pubmed_ingest.py` 262–283).  `raw_json_path` is the provenance file
path (`data/raw/<snapshot>/pubmed/<pmid>.json`; the absolute project-root
prefix is omitted). -/
def pubmedDocRow (rec : PubMedRecord) (snapshotId nowIso : String) : DocRow :=
  { doc_id := "PMID:" ++ rec.pmid
    source := "pubmed"
    snapshot_id := snapshotId
    title := rec.title
    abstract := some rec.abstract
    url := rec.url
    published_date := rec.pub_date
    epub_date := rec.epub_date
    entry_date := nowIso
    last_updated := none
    publication_type := rec.publication_types.head?
    raw_json_path := "data/raw/" ++ snapshotId ++ "/pubmed/" ++ rec.pmid ++ ".json" }

/-- Upsert of one PubMed record: write-or-replace the document row, then
delete and re-insert its affiliation rows (`pubmed_ingest.py` 236–291). -/
def upsertOnePubmed (rec : PubMedRecord) (snapshotId nowIso : String)
    (db : DB) : DB :=
  let docId := "PMID:" ++ rec.pmid
  { db with
    documents := insertOrReplaceDoc (pubmedDocRow rec snapshotId nowIso) db.documents
    affiliations :=
      db.affiliations.filter (fun a => a.1 ≠ docId) ++
        rec.affiliations.map (fun t => (docId, t)) }

/-- `upsert_pubmed_records` (`pubmed_ingest.py` 231–293). -/
def upsert_pubmed_records (records : List PubMedRecord)
    (snapshotId nowIso : String) (db : DB) : DB :=
  records.foldl (fun db rec => upsertOnePubmed rec snapshotId nowIso db) db

/-- The deduplicating affiliation loop of `upsert_ctgov_records`
(`clinicaltrials_ingest.py` 250–258): strip each of
`[lead_sponsor_name] + collaborator_names`, skip empties and names
already seen, insert the rest in order. -/
def ctgovAffLoop (docId : String) :
    List String → List String → List (String × String)
  | [], _seen => []
  | n0 :: rest, seen =>
      let n := pyStrip n0
      if n ≠ "" ∧ n ∉ seen then
        (docId, n) :: ctgovAffLoop docId rest (n :: seen)
      else ctgovAffLoop docId rest seen

/-- The `documents` row written for one trial
(`clinicaltrials_ingest.py` 226–246): `published_date` is
`first_posted or start_date`, `abstract` is `rec.abstract or None`,
`epub_date`/`publication_type` are not in the column list (NULL). -/
def ctgovDocRow (rec : CTRecord) (snapshotId nowIso : String) : DocRow :=
  { doc_id := "NCT:" ++ rec.nct_id
    source := "ctgov"
    snapshot_id := snapshotId
    title := rec.title
    abstract := if rec.abstract = "" then none else some rec.abstract
    url := rec.url
    published_date := pyOrOptStr rec.first_posted rec.start_date
    epub_date := none
    entry_date := nowIso
    last_updated := rec.last_updated
    publication_type := none
    raw_json_path := "data/raw/" ++ snapshotId ++ "/ctgov/" ++ rec.nct_id ++ ".json" }

/-- Upsert of one trial record (`clinicaltrials_ingest.py` 207–258). -/
def upsertOneCtgov (rec : CTRecord) (snapshotId nowIso : String) (db : DB) : DB :=
  let docId := "NCT:" ++ rec.nct_id
  { db with
    documents := insertOrReplaceDoc (ctgovDocRow rec snapshotId nowIso) db.documents
    affiliations :=
      db.affiliations.filter (fun a => a.1 ≠ docId) ++
        ctgovAffLoop docId (rec.lead_sponsor_name :: rec.collaborator_names) [] }

/-- `upsert_ctgov_records` (`clinicaltrials_ingest.py` 200–260). -/
def upsert_ctgov_records (records : List CTRecord)
    (snapshotId nowIso : String) (db : DB) : DB :=
  records.foldl (fun db rec => upsertOneCtgov rec snapshotId nowIso db) db

/-! ### Competitor tagger (`tag_competitors`, `pubmed_ingest.py` 296–338) -/

/-- One row of the alias join `SELECT ca.alias, c.competitor_id`.  The
source column is called `alias`; that word is a Lean command, so the field
is named `alias_text`. -/
structure AliasRow where
  alias_text : String
  competitor_id : Int
deriving DecidableEq, Repr

/-- Key of the spec §3 uniqueness constraint on `competitor_mentions`. -/
def mentionKey (m : Mention) : String × Int × String :=
  (m.doc_id, m.competitor_id, m.match_text)

/-- `INSERT OR IGNORE INTO competitor_mentions`: a no-op when a row with
the same `(doc_id, competitor_id, match_text)` key exists. -/
def insertMentionIfAbsent (ms : List Mention) (m : Mention) : List Mention :=
  if mentionKey m ∈ ms.map mentionKey then ms else ms ++ [m]

/-- The substring test of line 326: `alias.lower() in aff_lower`. -/
def aliasHits (affLower : String) (a : AliasRow) : Bool :=
  pyInStr (pyLower a.alias_text) affLower

/-- Inner `for alias, competitor_id in aliases` loop: on a hit, insert the
mention if absent and increment the counter unconditionally. -/
def tagAliasLoop (docId affLower : String) :
    List AliasRow → Nat × List Mention → Nat × List Mention
  | [], st => st
  | a :: rest, st =>
      if aliasHits affLower a then
        tagAliasLoop docId affLower rest
          (st.1 + 1,
           insertMentionIfAbsent st.2 ⟨docId, a.competitor_id, a.alias_text, "affiliation"⟩)
      else tagAliasLoop docId affLower rest st

/-- Outer `for doc_id, aff_text in aff_rows` loop. -/
def tagRowsLoop (aliases : List AliasRow) :
    List (String × String) → Nat × List Mention → Nat × List Mention
  | [], st => st
  | (docId, affText) :: rest, st =>
      tagRowsLoop aliases rest (tagAliasLoop docId (pyLower affText) aliases st)

/-- `tag_competitors(snapshot_id)`: `affRows` are the affiliation rows
joined to documents of the snapshot, `mentions` the current
`competitor_mentions` table.  Returns the match counter and the new
table. -/
def tag_competitors (aliases : List AliasRow)
    (affRows : List (String × String)) (mentions : List Mention) :
    Nat × List Mention :=
  tagRowsLoop aliases affRows (0, mentions)

/-! ### Pipeline entry prefixes (configuration-error behaviour)

Only the prefix of each entry point up to the first network call matters
for fail-fast claims; it is embedded as the list of side effects the
prefix performs (or the exception it raises first). -/

/-- One row of `monitoring_profiles` as the entry points read it. -/
structure ProfileRow where
  profile_id : Int
  query_terms : String
  is_active : Bool
deriving DecidableEq, Repr

/-- Side effects of a pipeline prefix, in order. -/
inductive PipeEffect where
  | snapshotCreated : PipeEffect
  | networkCall : String → PipeEffect
deriving DecidableEq, Repr

/-- `SELECT query_terms FROM monitoring_profiles WHERE profile_id = ? AND
is_active = 1` (`pubmed_ingest.py` 343–346). -/
def lookupActiveProfile (profiles : List ProfileRow) (pid : Int) :
    Option String :=
  (profiles.find? (fun p => p.profile_id = pid && p.is_active)).map
    (fun p => p.query_terms)

/-- Prefix of `ingest_profile` (`pubmed_ingest.py` 341–356): an inactive
or missing profile raises `ValueError` naming the profile id *before*
`ensure_snapshot` and `esearch`; otherwise the snapshot is created and the
search issued. -/
def ingest_profile_start (profiles : List ProfileRow) (pid : Int) :
    Except String (List PipeEffect) :=
  match lookupActiveProfile profiles pid with
  | none => .error ("Active profile not found: " ++ toString pid)
  | some _query => .ok [.snapshotCreated, .networkCall "esearch"]

/-- Prefix of `one_off_search_with_competitors` (`pubmed_ingest.py`
405–429): no validation of `mindate`/`maxdate` — the snapshot is created
and `esearch` called for every argument pair; the dates are only parsed
later (line 432–440), and a parse failure merely skips the post filter. -/
def one_off_search_start (_query mindate maxdate : String) :
    Except String (List PipeEffect) :=
  let _ := (mindate, maxdate)
  .ok [.snapshotCreated, .networkCall "esearch"]

/-- Prefix of `one_off_ctgov_search` (`clinicaltrials_ingest.py`
263–300): likewise no date validation before `ensure_snapshot` and the
studies request. -/
def one_off_ctgov_start (_condition : String)
    (startDate endDate : Option String) : Except String (List PipeEffect) :=
  let _ := (startDate, endDate)
  .ok [.snapshotCreated, .networkCall "ctgov-studies"]

/-! ### Demo inputs used by witnesses and counterexamples -/

/-- A trial first posted well before 2024, for window-filter examples. -/
def demoTrialOld : CTRecord :=
  { nct_id := "NCT00000001", title := "old trial", abstract := "", url := "u"
    start_date := none, completion_date := none
    first_posted := some "2020-01-01", last_updated := none
    phases := [], conditions := []
    lead_sponsor_name := "Pfizer", collaborator_names := [] }

/-! ### Tagger lemmas -/

/-- Matches of one affiliation row: aliases whose lowered text occurs in
the lowered affiliation. -/
def matchCountRow (affLower : String) (aliases : List AliasRow) : Nat :=
  (aliases.filter (aliasHits affLower)).length

/-- Total `(affiliation row, alias)` pairs passing the substring test. -/
def totalMatchCount (aliases : List AliasRow)
    (rows : List (String × String)) : Nat :=
  (rows.map (fun r => matchCountRow (pyLower r.2) aliases)).sum

theorem tagAliasLoop_fst (docId affLower : String) (as : List AliasRow) :
    ∀ (n : Nat) (ms : List Mention),
      (tagAliasLoop docId affLower as (n, ms)).1 = n + matchCountRow affLower as := by
  induction as with
  | nil => intro n ms; simp [tagAliasLoop, matchCountRow]
  | cons a rest ih =>
      intro n ms
      cases h : aliasHits affLower a with
      | true =>
          simp only [tagAliasLoop, h, if_true, ih, matchCountRow,
            List.filter_cons, List.length_cons]
          omega
      | false =>
          simp only [tagAliasLoop, h, Bool.false_eq_true, if_false, ih,
            matchCountRow, List.filter_cons]

theorem tagRowsLoop_fst (aliases : List AliasRow)
    (rows : List (String × String)) :
    ∀ (n : Nat) (ms : List Mention),
      (tagRowsLoop aliases rows (n, ms)).1 = n + totalMatchCount aliases rows := by
  induction rows with
  | nil => intro n ms; simp [tagRowsLoop, totalMatchCount]
  | cons r rest ih =>
      intro n ms
      obtain ⟨d, t⟩ := r
      have hfst := tagAliasLoop_fst d (pyLower t) aliases n ms
      cases hp : tagAliasLoop d (pyLower t) aliases (n, ms) with
      | mk n' ms' =>
          rw [hp] at hfst
          simp only [tagRowsLoop, hp, ih, totalMatchCount, List.map_cons,
            List.sum_cons]
          simp only at hfst
          omega

theorem keyMem_insert_self (ms : List Mention) (m : Mention) :
    mentionKey m ∈ (insertMentionIfAbsent ms m).map mentionKey := by
  unfold insertMentionIfAbsent
  split
  · assumption
  · simp

theorem keyMem_insert_mono (ms : List Mention) (m : Mention)
    {k : String × Int × String} (h : k ∈ ms.map mentionKey) :
    k ∈ (insertMentionIfAbsent ms m).map mentionKey := by
  unfold insertMentionIfAbsent
  split
  · exact h
  · simp only [List.map_append, List.mem_append]
    exact Or.inl h

theorem insert_eq_of_keyMem (ms : List Mention) (m : Mention)
    (h : mentionKey m ∈ ms.map mentionKey) :
    insertMentionIfAbsent ms m = ms := by
  unfold insertMentionIfAbsent
  rw [if_pos h]

theorem tagAliasLoop_keyMem_mono (docId affLower : String)
    (as : List AliasRow) :
    ∀ (n : Nat) (ms : List Mention) (k : String × Int × String),
      k ∈ ms.map mentionKey →
      k ∈ ((tagAliasLoop docId affLower as (n, ms)).2).map mentionKey := by
  induction as with
  | nil => intro n ms k h; simpa [tagAliasLoop] using h
  | cons a rest ih =>
      intro n ms k h
      cases ha : aliasHits affLower a with
      | true =>
          simp only [tagAliasLoop, ha, if_true]
          exact ih _ _ _ (keyMem_insert_mono ms _ h)
      | false =>
          simp only [tagAliasLoop, ha, Bool.false_eq_true, if_false]
          exact ih _ _ _ h

theorem tagAliasLoop_keyMem_of_hit (docId affLower : String)
    (as : List AliasRow) :
    ∀ (n : Nat) (ms : List Mention) (a : AliasRow), a ∈ as →
      aliasHits affLower a = true →
      (docId, a.competitor_id, a.alias_text) ∈
        ((tagAliasLoop docId affLower as (n, ms)).2).map mentionKey := by
  induction as with
  | nil => intro n ms a ha; exact absurd ha (List.not_mem_nil a)
  | cons b rest ih =>
      intro n ms a ha hhit
      rcases List.mem_cons.1 ha with rfl | hmem
      · simp only [tagAliasLoop, hhit, if_true]
        exact tagAliasLoop_keyMem_mono docId affLower rest _ _ _
          (keyMem_insert_self ms _)
      · cases hb : aliasHits affLower b with
        | true =>
            simp only [tagAliasLoop, hb, if_true]
            exact ih _ _ _ hmem hhit
        | false =>
            simp only [tagAliasLoop, hb, Bool.false_eq_true, if_false]
            exact ih _ _ _ hmem hhit

theorem tagAliasLoop_snd_noop (docId affLower : String)
    (as : List AliasRow) :
    ∀ (n : Nat) (ms : List Mention),
      (∀ a ∈ as, aliasHits affLower a = true →
        (docId, a.competitor_id, a.alias_text) ∈ ms.map mentionKey) →
      (tagAliasLoop docId affLower as (n, ms)).2 = ms := by
  induction as with
  | nil => intro n ms _; simp [tagAliasLoop]
  | cons a rest ih =>
      intro n ms h
      cases ha : aliasHits affLower a with
      | true =>
          simp only [tagAliasLoop, ha, if_true]
          rw [insert_eq_of_keyMem ms
            ⟨docId, a.competitor_id, a.alias_text, "affiliation"⟩
            (h a (List.mem_cons_self a rest) ha)]
          exact ih _ _ (fun b hb hhit => h b (List.mem_cons_of_mem a hb) hhit)
      | false =>
          simp only [tagAliasLoop, ha, Bool.false_eq_true, if_false]
          exact ih _ _ (fun b hb hhit => h b (List.mem_cons_of_mem a hb) hhit)

theorem tagRowsLoop_keyMem_mono (aliases : List AliasRow)
    (rows : List (String × String)) :
    ∀ (st : Nat × List Mention) (k : String × Int × String),
      k ∈ st.2.map mentionKey →
      k ∈ ((tagRowsLoop aliases rows st).2).map mentionKey := by
  induction rows with
  | nil => intro st k h; simpa [tagRowsLoop] using h
  | cons r rest ih =>
      intro st k h
      obtain ⟨d, t⟩ := r
      obtain ⟨n, ms⟩ := st
      simp only [tagRowsLoop]
      cases hp : tagAliasLoop d (pyLower t) aliases (n, ms) with
      | mk n' ms' =>
          apply ih
          have := tagAliasLoop_keyMem_mono d (pyLower t) aliases n ms k h
          rw [hp] at this
          exact this

theorem tagRowsLoop_keyMem_of_hit (aliases : List AliasRow)
    (rows : List (String × String)) :
    ∀ (st : Nat × List Mention) (d t : String) (a : AliasRow),
      (d, t) ∈ rows → a ∈ aliases → aliasHits (pyLower t) a = true →
      (d, a.competitor_id, a.alias_text) ∈
        ((tagRowsLoop aliases rows st).2).map mentionKey := by
  induction rows with
  | nil => intro st d t a h; exact absurd h (List.not_mem_nil _)
  | cons r rest ih =>
      intro st d t a hrow ha hhit
      obtain ⟨d0, t0⟩ := r
      obtain ⟨n, ms⟩ := st
      simp only [tagRowsLoop]
      rcases List.mem_cons.1 hrow with heq | hmem
      · obtain ⟨hd, ht⟩ := Prod.mk.injEq .. ▸ heq
        subst hd; subst ht
        apply tagRowsLoop_keyMem_mono
        have := tagAliasLoop_keyMem_of_hit d (pyLower t) aliases n ms a ha hhit
        exact this
      · exact ih _ d t a hmem ha hhit

theorem tagRowsLoop_snd_noop (aliases : List AliasRow)
    (rows : List (String × String)) :
    ∀ (n : Nat) (ms : List Mention),
      (∀ d t, (d, t) ∈ rows → ∀ a ∈ aliases, aliasHits (pyLower t) a = true →
        (d, a.competitor_id, a.alias_text) ∈ ms.map mentionKey) →
      (tagRowsLoop aliases rows (n, ms)).2 = ms := by
  induction rows with
  | nil => intro n ms _; simp [tagRowsLoop]
  | cons r rest ih =>
      intro n ms h
      obtain ⟨d0, t0⟩ := r
      simp only [tagRowsLoop]
      have hsnd : (tagAliasLoop d0 (pyLower t0) aliases (n, ms)).2 = ms :=
        tagAliasLoop_snd_noop d0 (pyLower t0) aliases n ms
          (fun a ha hhit => h d0 t0 (List.mem_cons_self _ _) a ha hhit)
      cases hp : tagAliasLoop d0 (pyLower t0) aliases (n, ms) with
      | mk n' ms' =>
          rw [hp] at hsnd
          simp only at hsnd
          rw [hsnd]
          exact ih n' ms
            (fun d t hdt a ha hhit => h d t (List.mem_cons_of_mem _ hdt) a ha hhit)

/-- At most one mention row per `(doc_id, competitor_id, match_text)` key:
the spec §3 uniqueness invariant on `competitor_mentions`. -/
def KeyDistinct (ms : List Mention) : Prop :=
  ms.Pairwise (fun x y => mentionKey x ≠ mentionKey y)

theorem keyDistinct_insert (ms : List Mention) (m : Mention)
    (h : KeyDistinct ms) : KeyDistinct (insertMentionIfAbsent ms m) := by
  unfold insertMentionIfAbsent
  split
  · exact h
  · rename_i habs
    refine List.pairwise_append.2 ⟨h, List.pairwise_singleton _ _, ?_⟩
    intro x hx y hy
    rcases List.mem_singleton.1 hy with rfl
    intro hk
    exact habs (hk ▸ List.mem_map_of_mem mentionKey hx)

theorem tagAliasLoop_keyDistinct (docId affLower : String)
    (as : List AliasRow) :
    ∀ (n : Nat) (ms : List Mention), KeyDistinct ms →
      KeyDistinct (tagAliasLoop docId affLower as (n, ms)).2 := by
  induction as with
  | nil => intro n ms h; simpa [tagAliasLoop] using h
  | cons a rest ih =>
      intro n ms h
      cases ha : aliasHits affLower a with
      | true =>
          simp only [tagAliasLoop, ha, if_true]
          exact ih _ _ (keyDistinct_insert ms _ h)
      | false =>
          simp only [tagAliasLoop, ha, Bool.false_eq_true, if_false]
          exact ih _ _ h

theorem tagRowsLoop_keyDistinct (aliases : List AliasRow)
    (rows : List (String × String)) :
    ∀ (st : Nat × List Mention), KeyDistinct st.2 →
      KeyDistinct (tagRowsLoop aliases rows st).2 := by
  induction rows with
  | nil => intro st h; simpa [tagRowsLoop] using h
  | cons r rest ih =>
      intro st h
      obtain ⟨d, t⟩ := r
      obtain ⟨n, ms⟩ := st
      simp only [tagRowsLoop]
      apply ih
      cases hp : tagAliasLoop d (pyLower t) aliases (n, ms) with
      | mk n' ms' =>
          have := tagAliasLoop_keyDistinct d (pyLower t) aliases n ms h
          rw [hp] at this
          exact this

/-! ### Claims C4, C5, C9 -/

/-- **C4.** Running `tag_competitors` twice over an unchanged snapshot
(same alias table and affiliation rows) leaves `competitor_mentions`
identical to its state after the first run: at most one row exists per
`(doc_id, competitor_id, match_text)` key, and the second run inserts no
new rows.  The hypothesis is the table's own uniqueness invariant. -/
theorem C4_mention_idempotence (aliases : List AliasRow)
    (affRows : List (String × String)) (mentions : List Mention)
    (h : KeyDistinct mentions) :
    KeyDistinct (tag_competitors aliases affRows mentions).2 ∧
    (tag_competitors aliases affRows
        (tag_competitors aliases affRows mentions).2).2 =
      (tag_competitors aliases affRows mentions).2 := by
  constructor
  · exact tagRowsLoop_keyDistinct aliases affRows (0, mentions) h
  · exact tagRowsLoop_snd_noop aliases affRows 0 _
      (fun d t hdt a ha hhit =>
        tagRowsLoop_keyMem_of_hit aliases affRows (0, mentions) d t a hdt ha hhit)

theorem C4_mention_idempotence_witness :
    KeyDistinct (tag_competitors [⟨"Acme", 1⟩]
        [("PMID:1", "Dept. of Immunology, Acme Biotech Inc.")] []).2 ∧
    (tag_competitors [⟨"Acme", 1⟩]
        [("PMID:1", "Dept. of Immunology, Acme Biotech Inc.")]
        (tag_competitors [⟨"Acme", 1⟩]
          [("PMID:1", "Dept. of Immunology, Acme Biotech Inc.")] []).2).2 =
      (tag_competitors [⟨"Acme", 1⟩]
        [("PMID:1", "Dept. of Immunology, Acme Biotech Inc.")] []).2 :=
  C4_mention_idempotence [⟨"Acme", 1⟩]
    [("PMID:1", "Dept. of Immunology, Acme Biotech Inc.")] [] List.Pairwise.nil

/-- **C5.** `tag_competitors` returns the number of `(affiliation row,
alias)` pairs whose case-insensitive substring test succeeds — counting
every match whether or not the mention insert was a no-op — so the count
is independent of the pre-existing mention table, and two consecutive runs
over an unchanged snapshot return the same count. -/
theorem C5_tag_count_matches_evaluated (aliases : List AliasRow)
    (affRows : List (String × String)) (mentions : List Mention) :
    (tag_competitors aliases affRows mentions).1 =
      totalMatchCount aliases affRows ∧
    (tag_competitors aliases affRows
        (tag_competitors aliases affRows mentions).2).1 =
      (tag_competitors aliases affRows mentions).1 := by
  have h1 := tagRowsLoop_fst aliases affRows 0 mentions
  have h2 := tagRowsLoop_fst aliases affRows 0
    (tag_competitors aliases affRows mentions).2
  exact ⟨by simpa [tag_competitors] using h1,
    by simp [tag_competitors] at h1 h2 ⊢; omega⟩

/-- The empty needle occurs in every haystack (`"" in s` is `True`). -/
theorem containsAux_nil (l : List Char) : containsAux [] l = true := by
  cases l <;> simp [containsAux, List.isPrefixOf]

theorem totalMatchCount_cons_always (a : AliasRow) (rest : List AliasRow)
    (rows : List (String × String)) (hhit : ∀ t, aliasHits t a = true) :
    totalMatchCount (a :: rest) rows = rows.length + totalMatchCount rest rows := by
  induction rows with
  | nil => simp [totalMatchCount]
  | cons r rs ih =>
      have hr : matchCountRow (pyLower r.2) (a :: rest) =
          matchCountRow (pyLower r.2) rest + 1 := by
        simp [matchCountRow, List.filter_cons, hhit (pyLower r.2)]
      simp only [totalMatchCount, List.map_cons, List.sum_cons,
        List.length_cons] at ih ⊢
      omega

/-- **C9.** An empty-string alias for competitor `cid` matches every
affiliation row: the counter gains one match per affiliation row beyond
the other aliases' matches, and every document owning an affiliation row
gets a `(doc, cid, "")` mention recorded. -/
theorem C9_empty_alias_matches_everything (cid : Int)
    (rest aliases : List AliasRow) (affRows : List (String × String))
    (mentions : List Mention) (h : aliases = ⟨"", cid⟩ :: rest) :
    (tag_competitors aliases affRows mentions).1 =
      affRows.length + (tag_competitors rest affRows mentions).1 ∧
    ∀ d t, (d, t) ∈ affRows →
      (d, cid, "") ∈ ((tag_competitors aliases affRows mentions).2).map mentionKey := by
  subst h
  have hhit : ∀ t : String, aliasHits t ⟨"", cid⟩ = true := by
    intro t
    exact containsAux_nil t.data
  constructor
  · have h1 := tagRowsLoop_fst (⟨"", cid⟩ :: rest) affRows 0 mentions
    have h2 := tagRowsLoop_fst rest affRows 0 mentions
    have hcount := totalMatchCount_cons_always ⟨"", cid⟩ rest affRows hhit
    simp only [tag_competitors] at *
    omega
  · intro d t hdt
    exact tagRowsLoop_keyMem_of_hit (⟨"", cid⟩ :: rest) affRows (0, mentions)
      d t ⟨"", cid⟩ hdt (List.mem_cons_self _ _) (hhit (pyLower t))

theorem C9_empty_alias_matches_everything_witness :
    (tag_competitors [⟨"", 5⟩] [("PMID:1", "anything")] []).1 =
      [("PMID:1", "anything")].length + (tag_competitors [] [("PMID:1", "anything")] []).1 ∧
    ∀ d t, (d, t) ∈ [("PMID:1", "anything")] →
      (d, (5 : Int), "") ∈ ((tag_competitors [⟨"", 5⟩] [("PMID:1", "anything")] []).2).map mentionKey :=
  C9_empty_alias_matches_everything 5 [] [⟨"", 5⟩] [("PMID:1", "anything")] [] rfl

/-! ### Upsert lemmas and claim C1 -/

theorem docs_filter_ne_eq_nil (v : String) (l : List DocRow) :
    (l.filter (fun d => d.doc_id ≠ v)).filter (fun d => d.doc_id = v) = [] := by
  induction l with
  | nil => rfl
  | cons x xs ih =>
      by_cases h : x.doc_id = v <;> simp [List.filter_cons, h, ih]

theorem affs_filter_ne_eq_nil (v : String) (l : List (String × String)) :
    (l.filter (fun a => a.1 ≠ v)).filter (fun a => a.1 = v) = [] := by
  induction l with
  | nil => rfl
  | cons x xs ih =>
      by_cases h : x.1 = v <;> simp [List.filter_cons, h, ih]

theorem affs_filter_eq_map (k : String) (l : List String) :
    (l.map (fun t => (k, t))).filter (fun a => a.1 = k) =
      l.map (fun t => (k, t)) := by
  induction l with
  | nil => rfl
  | cons x xs ih => simp [List.filter_cons, ih]

theorem ctgovAffLoop_filter_eq (docId : String) :
    ∀ (names seen : List String),
      (ctgovAffLoop docId names seen).filter (fun a => a.1 = docId) =
        ctgovAffLoop docId names seen := by
  intro names
  induction names with
  | nil => intro seen; rfl
  | cons n0 rest ih =>
      intro seen
      simp only [ctgovAffLoop]
      split
      · simp [List.filter_cons, ih]
      · exact ih _

/-- **C1.** Upserting the same native id a second time — into the same or
a different snapshot — leaves exactly one `documents` row for it (the
second write's row) and its affiliation rows equal exactly the second
ingestion's affiliation list (delete-then-insert, never a union), for both
`upsert_pubmed_records` and `upsert_ctgov_records`. -/
theorem C1_upsert_last_write_wins (db : DB) (s1 s2 n1 n2 : String) :
    (∀ r1 r2 : PubMedRecord, r1.pmid = r2.pmid →
      ((upsert_pubmed_records [r2] s2 n2
          (upsert_pubmed_records [r1] s1 n1 db)).documents.filter
        (fun d => d.doc_id = "PMID:" ++ r2.pmid) = [pubmedDocRow r2 s2 n2]) ∧
      ((upsert_pubmed_records [r2] s2 n2
          (upsert_pubmed_records [r1] s1 n1 db)).affiliations.filter
        (fun a => a.1 = "PMID:" ++ r2.pmid) =
        r2.affiliations.map (fun t => ("PMID:" ++ r2.pmid, t)))) ∧
    (∀ c1 c2 : CTRecord, c1.nct_id = c2.nct_id →
      ((upsert_ctgov_records [c2] s2 n2
          (upsert_ctgov_records [c1] s1 n1 db)).documents.filter
        (fun d => d.doc_id = "NCT:" ++ c2.nct_id) = [ctgovDocRow c2 s2 n2]) ∧
      ((upsert_ctgov_records [c2] s2 n2
          (upsert_ctgov_records [c1] s1 n1 db)).affiliations.filter
        (fun a => a.1 = "NCT:" ++ c2.nct_id) =
        ctgovAffLoop ("NCT:" ++ c2.nct_id)
          (c2.lead_sponsor_name :: c2.collaborator_names) [])) := by
  constructor
  · intro r1 r2 _h
    constructor
    · simp only [upsert_pubmed_records, List.foldl_cons, List.foldl_nil,
        upsertOnePubmed, insertOrReplaceDoc, pubmedDocRow, List.filter_append]
      rw [docs_filter_ne_eq_nil]
      simp [List.filter_cons]
    · simp only [upsert_pubmed_records, List.foldl_cons, List.foldl_nil,
        upsertOnePubmed, insertOrReplaceDoc, pubmedDocRow, List.filter_append]
      rw [affs_filter_ne_eq_nil, affs_filter_eq_map]
      simp
  · intro c1 c2 _h
    constructor
    · simp only [upsert_ctgov_records, List.foldl_cons, List.foldl_nil,
        upsertOneCtgov, insertOrReplaceDoc, ctgovDocRow, List.filter_append]
      rw [docs_filter_ne_eq_nil]
      simp [List.filter_cons]
    · simp only [upsert_ctgov_records, List.foldl_cons, List.foldl_nil,
        upsertOneCtgov, insertOrReplaceDoc, ctgovDocRow, List.filter_append]
      rw [affs_filter_ne_eq_nil, ctgovAffLoop_filter_eq]
      simp

def demoDB : DB := ⟨[], [], []⟩

def demoPm1 : PubMedRecord :=
  ⟨"42", "t1", "a1", some "2024-01-02", none, [], ["Old Aff"], "u1"⟩

def demoPm2 : PubMedRecord :=
  ⟨"42", "t2", "a2", some "2024-03-04", none, ["Review"],
    ["New Aff A", "New Aff B"], "u2"⟩

theorem C1_upsert_last_write_wins_witness :
    ((upsert_pubmed_records [demoPm2] "s2" "n2"
        (upsert_pubmed_records [demoPm1] "s1" "n1" demoDB)).documents.filter
      (fun d => d.doc_id = "PMID:" ++ demoPm2.pmid) =
      [pubmedDocRow demoPm2 "s2" "n2"]) ∧
    ((upsert_pubmed_records [demoPm2] "s2" "n2"
        (upsert_pubmed_records [demoPm1] "s1" "n1" demoDB)).affiliations.filter
      (fun a => a.1 = "PMID:" ++ demoPm2.pmid) =
      demoPm2.affiliations.map (fun t => ("PMID:" ++ demoPm2.pmid, t))) :=
  (C1_upsert_last_write_wins demoDB "s1" "s2" "n1" "n2").1 demoPm1 demoPm2 rfl

/-! ### Claims C2 and C3 (window filter and epub precedence) -/

/-- **C2.** For every window `[A, B]` of day ordinals, each of the three
post-fetch filters (the `ingest_profile` loop, the
`one_off_search_with_competitors` loop, and the ClinicalTrials.gov loop)
keeps a record exactly when its effective date's ordinal `v` satisfies
`A ≤ v ≤ B`; in particular it drops `v = A - 1` and `v = B + 1`
(boundaries inclusive), and always keeps a record whose effective date is
unparseable (`None`). -/
theorem C2_window_filter_boundaries (A B : Int) :
    (∀ (rec : PubMedRecord) (v : Int),
      parse_date_to_ordinal (firstPubDate rec) = .ok (some v) →
      profileWindowFilter A B [rec] =
        .ok (if A ≤ v ∧ v ≤ B then [rec] else []) ∧
      (v = A - 1 → profileWindowFilter A B [rec] = .ok []) ∧
      (v = B + 1 → profileWindowFilter A B [rec] = .ok [])) ∧
    (∀ rec : PubMedRecord,
      parse_date_to_ordinal (firstPubDate rec) = .ok none →
      profileWindowFilter A B [rec] = .ok [rec]) ∧
    (∀ (rec : PubMedRecord) (v : Int),
      parse_date_to_ordinal (firstPubDate rec) = .ok (some v) →
      oneOffWindowFilter A B [rec] =
        .ok (if A ≤ v ∧ v ≤ B then [rec] else []) ∧
      (v = A - 1 → oneOffWindowFilter A B [rec] = .ok []) ∧
      (v = B + 1 → oneOffWindowFilter A B [rec] = .ok [])) ∧
    (∀ rec : PubMedRecord,
      parse_date_to_ordinal (firstPubDate rec) = .ok none →
      oneOffWindowFilter A B [rec] = .ok [rec]) ∧
    (∀ (r : CTRecord) (v : Int),
      parse_ct_date_to_ordinal (ctKeyDate r) = some v →
      ctWindowFilter A B [r] = (if A ≤ v ∧ v ≤ B then [r] else []) ∧
      (v = A - 1 → ctWindowFilter A B [r] = []) ∧
      (v = B + 1 → ctWindowFilter A B [r] = [])) ∧
    (∀ r : CTRecord,
      parse_ct_date_to_ordinal (ctKeyDate r) = none →
      ctWindowFilter A B [r] = [r]) := by
  refine ⟨?_, ?_, ?_, ?_, ?_, ?_⟩
  · intro rec v hv
    have hbase : profileWindowFilter A B [rec] =
        .ok (if A ≤ v ∧ v ≤ B then [rec] else []) := by
      simp only [profileWindowFilter, hv, bind, Except.bind]
      split <;> rfl
    exact ⟨hbase, fun hva => by rw [hbase, if_neg (by omega)],
      fun hvb => by rw [hbase, if_neg (by omega)]⟩
  · intro rec hv
    simp only [profileWindowFilter, hv, bind, Except.bind]
  · intro rec v hv
    have hbase : oneOffWindowFilter A B [rec] =
        .ok (if A ≤ v ∧ v ≤ B then [rec] else []) := by
      simp only [oneOffWindowFilter, hv, bind, Except.bind]
      split <;> rfl
    exact ⟨hbase, fun hva => by rw [hbase, if_neg (by omega)],
      fun hvb => by rw [hbase, if_neg (by omega)]⟩
  · intro rec hv
    simp only [oneOffWindowFilter, hv, bind, Except.bind]
  · intro r v hv
    have hbase : ctWindowFilter A B [r] =
        (if A ≤ v ∧ v ≤ B then [r] else []) := by
      simp only [ctWindowFilter, hv]
    exact ⟨hbase, fun hva => by rw [hbase, if_neg (by omega)],
      fun hvb => by rw [hbase, if_neg (by omega)]⟩
  · intro r hv
    simp only [ctWindowFilter, hv]

def demoPmMay : PubMedRecord :=
  ⟨"77", "t", "a", some "2024-05-10", none, [], [], "u"⟩

theorem C2_window_filter_boundaries_witness :
    parse_date_to_ordinal (firstPubDate demoPmMay) =
      .ok (some (dateOrdinal 2024 5 10)) ∧
    profileWindowFilter (dateOrdinal 2024 5 1) (dateOrdinal 2024 5 31)
        [demoPmMay] =
      .ok (if dateOrdinal 2024 5 1 ≤ dateOrdinal 2024 5 10 ∧
              dateOrdinal 2024 5 10 ≤ dateOrdinal 2024 5 31
           then [demoPmMay] else []) :=
  ⟨rfl,
   ((C2_window_filter_boundaries (dateOrdinal 2024 5 1)
      (dateOrdinal 2024 5 31)).1 demoPmMay (dateOrdinal 2024 5 10)
      rfl).1⟩

/-- **C3.** The effective first-publication date used by the PubMed window
filter is `epub_date` when present (the parser never produces an empty
epub string) else `published_date`; consequently a record whose epub date
falls before the window is dropped even when its print date lies inside
the window, and a record whose epub date lies inside the window is kept
even when its print date falls outside it. -/
theorem C3_epub_precedence :
    (∀ (rec : PubMedRecord) (e : String), rec.epub_date = some e → e ≠ "" →
      firstPubDate rec = some e) ∧
    (∀ rec : PubMedRecord, rec.epub_date = none →
      firstPubDate rec = rec.pub_date) ∧
    (∀ (A B : Int) (rec : PubMedRecord) (e : String) (ve vp : Int),
      rec.epub_date = some e → e ≠ "" →
      parse_date_to_ordinal (some e) = .ok (some ve) → ve < A →
      parse_date_to_ordinal rec.pub_date = .ok (some vp) →
      A ≤ vp → vp ≤ B →
      profileWindowFilter A B [rec] = .ok []) ∧
    (∀ (A B : Int) (rec : PubMedRecord) (e : String) (ve vp : Int),
      rec.epub_date = some e → e ≠ "" →
      parse_date_to_ordinal (some e) = .ok (some ve) → A ≤ ve → ve ≤ B →
      parse_date_to_ordinal rec.pub_date = .ok (some vp) →
      (vp < A ∨ B < vp) →
      profileWindowFilter A B [rec] = .ok [rec]) := by
  have hfp : ∀ (rec : PubMedRecord) (e : String), rec.epub_date = some e →
      e ≠ "" → firstPubDate rec = some e := by
    intro rec e he hne
    simp [firstPubDate, pyOrOptStr, he, hne]
  refine ⟨hfp, ?_, ?_, ?_⟩
  · intro rec he
    simp [firstPubDate, pyOrOptStr, he]
  · intro A B rec e ve vp he hne hpe hlt _hpp _hA _hB
    have h1 : parse_date_to_ordinal (firstPubDate rec) = .ok (some ve) := by
      rw [hfp rec e he hne]; exact hpe
    simp only [profileWindowFilter, h1, bind, Except.bind]
    rw [if_neg (by omega)]
  · intro A B rec e ve vp he hne hpe hA hB _hpp _hout
    have h1 : parse_date_to_ordinal (firstPubDate rec) = .ok (some ve) := by
      rw [hfp rec e he hne]; exact hpe
    simp only [profileWindowFilter, h1, bind, Except.bind]
    rw [if_pos ⟨hA, hB⟩]

def demoPmEpubEarly : PubMedRecord :=
  ⟨"88", "t", "a", some "2024-05-10", some "2024-03-01", [], [], "u"⟩

theorem C3_epub_precedence_witness :
    profileWindowFilter (dateOrdinal 2024 5 1) (dateOrdinal 2024 5 31)
      [demoPmEpubEarly] = .ok [] :=
  C3_epub_precedence.2.2.1 (dateOrdinal 2024 5 1) (dateOrdinal 2024 5 31)
    demoPmEpubEarly "2024-03-01" (dateOrdinal 2024 3 1)
    (dateOrdinal 2024 5 10) rfl (by decide) rfl (by decide)
    rfl (by decide) (by decide)

/-! ### Claim C6 (pagination cap and window filter) -/

theorem ctPageLoop_length_inv (m : Int) (hm : 0 < m)
    (page : List (Option CTRecord)) :
    ∀ acc : List CTRecord, (acc.length : Int) < m →
      (match ctPageLoop (some m) page acc with
       | .inl a => (a.length : Int) < m
       | .inr a => (a.length : Int) ≤ m) := by
  induction page with
  | nil => intro acc h; simpa [ctPageLoop] using h
  | cons study rest ih =>
      intro acc h
      simp only [ctPageLoop]
      have hlen : ∀ acc' : List CTRecord,
          acc' = (match study with
                  | some rec => acc ++ [rec]
                  | none => acc) →
          (acc'.length : Int) ≤ (acc.length : Int) + 1 := by
        intro acc' h'
        cases study <;> simp [h']
      cases hcap : capReached (some m)
          (match study with
           | some rec => acc ++ [rec]
           | none => acc).length with
      | true =>
          simp only [hcap, if_true]
          have := hlen _ rfl
          omega
      | false =>
          simp only [hcap, Bool.false_eq_true, if_false]
          apply ih
          simp only [capReached, Bool.and_eq_true, decide_eq_true_eq,
            Bool.and_eq_false_iff, decide_eq_false_iff_not, not_le,
            Bool.not_eq_true] at hcap
          rcases hcap with h0 | hlt
          · omega
          · exact hlt

theorem ctCandidatesGo_length (m : Int) (hm : 0 < m) :
    ∀ (pages : List (List (Option CTRecord))) (acc : List CTRecord),
      (acc.length : Int) < m →
      ((ctCandidatesGo (some m) pages acc).length : Int) ≤ m := by
  intro pages
  induction pages with
  | nil => intro acc h; simp only [ctCandidatesGo]; omega
  | cons page rest ih =>
      intro acc h
      simp only [ctCandidatesGo]
      have hinv := ctPageLoop_length_inv m hm page acc h
      cases hp : ctPageLoop (some m) page acc with
      | inl a => rw [hp] at hinv; exact ih a hinv
      | inr a => rw [hp] at hinv; exact hinv

theorem search_studies_go_eq_filter (maxStudies : Option Int)
    (startDate endDate : Option String) :
    ∀ (pages : List (List (Option CTRecord))) (acc : List CTRecord),
      search_studies_go maxStudies startDate endDate pages acc =
        applyCtWindowOpt startDate endDate
          (ctCandidatesGo maxStudies pages acc) := by
  intro pages
  induction pages with
  | nil => intro acc; rfl
  | cons page rest ih =>
      intro acc
      simp only [search_studies_go, ctCandidatesGo]
      cases hp : ctPageLoop maxStudies page acc with
      | inl a => exact ih a
      | inr a => rfl

/-- **C6 counterexample.** The claim "the number of parsed candidate
records never exceeds `max_studies`" fails at `max_studies = 0`: Python's
`if max_studies and len(records) >= max_studies` is falsy at `0`, so the
cap is disabled and a single-page response already yields one candidate,
exceeding the requested cap of zero. -/
theorem C6_counterexample :
    ¬ (((ctCandidates (some 0) [[some demoTrialOld]]).length : Int) ≤ 0) := by
  decide

/-- **C6 (amended).** When `max_studies` is a *positive* integer, the
parsed candidates never exceed it; the date-window filter is applied to
the accumulated candidates on both exit paths (early exit mid-page and
token exhaustion), i.e. the returned list is always the window filter of
the candidate list; and with a narrow window the returned list is shorter
than the cap (concrete instance: one candidate fetched, none returned). -/
theorem C6_cap_and_filter (m : Int) (hm : 0 < m) :
    (∀ pages : List (List (Option CTRecord)),
      ((ctCandidates (some m) pages).length : Int) ≤ m) ∧
    (∀ (maxStudies : Option Int) (startDate endDate : Option String)
       (pages : List (List (Option CTRecord))),
      search_studies maxStudies startDate endDate pages =
        applyCtWindowOpt startDate endDate (ctCandidates maxStudies pages)) ∧
    (search_studies (some 1) (some "2024-01-01") (some "2024-12-31")
        [[some demoTrialOld]] = [] ∧
     (ctCandidates (some 1) [[some demoTrialOld]]).length = 1) := by
  refine ⟨?_, ?_, ?_, ?_⟩
  · intro pages
    exact ctCandidatesGo_length m hm pages [] (by simpa using hm)
  · intro maxStudies startDate endDate pages
    exact search_studies_go_eq_filter maxStudies startDate endDate pages []
  · decide
  · decide

theorem C6_cap_and_filter_witness :
    ((ctCandidates (some 5) [[some demoTrialOld]]).length : Int) ≤ 5 :=
  (C6_cap_and_filter 5 (by decide)).1 [[some demoTrialOld]]

/-! ### Claim C7 (date parsing totality) -/

/-- **C7 (code bug).** `_parse_date_to_ordinal` is *not* total: on the
one-character string `"²"` (U+00B2, SUPERSCRIPT TWO) the `isdigit` guard
passes — `str.isdigit` accepts `Numeric_Type=Digit` characters — but the
unguarded `int(parts[0])` outside the `try` block raises `ValueError`,
contradicting the spec's "unparseable input must never raise".  (The
ClinicalTrials.gov parser wraps everything in `try` and is total, as its
`Option`-valued embedding `parse_ct_date_to_ordinal` shows by type.) -/
theorem C7_parse_date_raises_on_superscript :
    pyStrIsDigit "²" = true ∧
    parse_date_to_ordinal (some "²") =
      .error ("ValueError: invalid literal for int() with base 10: " ++ "²") ∧
    parse_ct_date_to_ordinal (some "²") = none := by
  refine ⟨rfl, rfl, rfl⟩

/-! ### Claim C8 (configuration errors / fail fast) -/

/-- **C8 counterexample.** A start date after the end date does *not* fail
fast: `one_off_search_with_competitors("q", "2026/02/16", "2026/01/01")`
creates a snapshot and issues the `esearch` network call without raising,
although the supplied `mindate` (ordinal of 2026-02-16) is strictly after
the `maxdate` (ordinal of 2026-01-01). -/
theorem C8_counterexample :
    one_off_search_start "q" "2026/02/16" "2026/01/01" =
      .ok [.snapshotCreated, .networkCall "esearch"] ∧
    parseSlashDate "2026/02/16" = some (dateOrdinal 2026 2 16) ∧
    parseSlashDate "2026/01/01" = some (dateOrdinal 2026 1 1) ∧
    dateOrdinal 2026 1 1 < dateOrdinal 2026 2 16 := by
  refine ⟨rfl, rfl, rfl, by decide⟩

/-- **C8 (amended).** A missing or inactive profile makes
`ingest_profile` raise `ValueError` naming the profile id before any
snapshot creation or network call (the error carries no effects); but a
start date after the end date is *not* validated: both one-off entry
points create a snapshot and issue their network call for every date
pair. -/
theorem C8_fail_fast (profiles : List ProfileRow) (pid : Int)
    (h : lookupActiveProfile profiles pid = none) :
    ingest_profile_start profiles pid =
      .error ("Active profile not found: " ++ toString pid) ∧
    (∀ q mn mx : String,
      one_off_search_start q mn mx =
        .ok [.snapshotCreated, .networkCall "esearch"]) ∧
    (∀ (c : String) (sd ed : Option String),
      one_off_ctgov_start c sd ed =
        .ok [.snapshotCreated, .networkCall "ctgov-studies"]) := by
  refine ⟨?_, fun _ _ _ => rfl, fun _ _ _ => rfl⟩
  simp [ingest_profile_start, h]

theorem C8_fail_fast_witness :
    ingest_profile_start [] 7 =
      .error ("Active profile not found: " ++ toString (7 : Int)) ∧
    (∀ q mn mx : String,
      one_off_search_start q mn mx =
        .ok [.snapshotCreated, .networkCall "esearch"]) ∧
    (∀ (c : String) (sd ed : Option String),
      one_off_ctgov_start c sd ed =
        .ok [.snapshotCreated, .networkCall "ctgov-studies"]) :=
  C8_fail_fast [] 7 rfl

/-! ### Claim C10 (`esearch` default window) -/

/-- **C10.** If exactly one of `mindate`/`maxdate` is supplied, `esearch`
discards the supplied bound and replaces *both* with the default 30-day
window ending today (`today - 30 days` and `today`, formatted
`%Y/%m/%d`); the supplied bounds reach the query only when both are
given. -/
theorem C10_esearch_default_window (todayOrd : Nat) :
    (∀ mn : String,
      esearchWindow todayOrd (some mn) none =
        (fmtSlashOrd (todayOrd - 30), fmtSlashOrd todayOrd) ∧
      esearchWindow todayOrd (some mn) none =
        esearchWindow todayOrd none none) ∧
    (∀ mx : String,
      esearchWindow todayOrd none (some mx) =
        (fmtSlashOrd (todayOrd - 30), fmtSlashOrd todayOrd) ∧
      esearchWindow todayOrd none (some mx) =
        esearchWindow todayOrd none none) ∧
    (∀ mn mx : String,
      esearchWindow todayOrd (some mn) (some mx) = (mn, mx)) :=
  ⟨fun _ => ⟨rfl, rfl⟩, fun _ => ⟨rfl, rfl⟩, fun _ _ => rfl⟩

end Adivo
